import Mathlib

/-!
Verification of the core calculators of the budgeting application:
the progressive tax estimator and allocation rebalancer (App.tsx),
the dual-track growth simulator (InvestmentChart in AiAdvisor.tsx/InvestmentChart.tsx),
and the mortgage amortization simulator (HousingSearch.tsx).

JavaScript numbers are modelled as exact rationals.  Math.round is modelled by
Mathlib round (both are floor of x + 1/2), Math.min / Math.max by min / max.

Because Batteries marks the arithmetic on Rat irreducible, a parallel set of
kernel-reducible operations (qadd, qsub, qmul, qmin, qround) is defined and
proved equal to the standard ones; kernel evaluation of the simulators goes
through mirror definitions built from those, each proved equal to its model.
-/

set_option maxRecDepth 40000

/-! ### Kernel-reducible rational arithmetic -/

def qadd (a b : ℚ) : ℚ := mkRat (a.num * b.den + b.num * a.den) (a.den * b.den)

def qsub (a b : ℚ) : ℚ := mkRat (a.num * b.den - b.num * a.den) (a.den * b.den)

def qmul (a b : ℚ) : ℚ := mkRat (a.num * b.num) (a.den * b.den)

def qmin (a b : ℚ) : ℚ := if a ≤ b then a else b

def qround (q : ℚ) : ℤ := ⌊qadd q (mkRat 1 2)⌋

/-! ### Tax estimator and initial budget (App.tsx, calculateBudget, lines 22-70) -/

/-- Standard deduction applied to gross income, floored at 0 (App.tsx line 27). -/
def taxableIncome (income : ℚ) : ℚ := max 0 (income - 14600)

/-- The hard-coded 2024 single-filer bracket chain (App.tsx lines 30-36). -/
def federalTax (taxable : ℚ) : ℚ :=
  if 609350 < taxable then (taxable - 609350) * 0.37 + 183647
  else if 243725 < taxable then (taxable - 243725) * 0.35 + 55678.5
  else if 191950 < taxable then (taxable - 191950) * 0.32 + 39110.5
  else if 100525 < taxable then (taxable - 100525) * 0.24 + 17168.5
  else if 47150 < taxable then (taxable - 47150) * 0.22 + 5426
  else if 11600 < taxable then (taxable - 11600) * 0.12 + 1160
  else taxable * 0.10

structure TaxBreakdown where
  federal : ℚ
  state : ℚ
  fica : ℚ
  total : ℚ
deriving DecidableEq

/-- The four spending categories, in the object-literal order of App.tsx. -/
structure Allocations where
  housing : ℚ
  food : ℚ
  general : ℚ
  savings : ℚ
deriving DecidableEq

structure BudgetData where
  netMonthlyIncome : ℚ
  taxes : TaxBreakdown
  allocations : Allocations
deriving DecidableEq

/-- App.tsx calculateBudget: taxes, net monthly income and the 35/15/20/30 template. -/
def calculateBudget (income stateBaseRate : ℚ) : BudgetData :=
  let federal := federalTax (taxableIncome income)
  let fica := income * 0.0765
  let stateTax := max 0 ((income - 14600) * stateBaseRate)
  let totalTax := federal + stateTax + fica
  let netIncome := income - totalTax
  let netMonthly := netIncome / 12
  { netMonthlyIncome := netMonthly
    taxes := { federal := federal, state := stateTax, fica := fica, total := totalTax }
    allocations :=
      { housing := netMonthly * 0.35
        food := netMonthly * 0.15
        general := netMonthly * 0.20
        savings := netMonthly * 0.30 } }

/-! ### Allocation rebalancer (App.tsx, updateAllocation, lines 72-137) -/

inductive Category where
  | housing
  | food
  | general
  | savings
deriving DecidableEq

def aget (a : Allocations) : Category → ℚ
  | .housing => a.housing
  | .food => a.food
  | .general => a.general
  | .savings => a.savings

def aset (a : Allocations) : Category → ℚ → Allocations
  | .housing, v => { a with housing := v }
  | .food, v => { a with food := v }
  | .general, v => { a with general := v }
  | .savings, v => { a with savings := v }

/-- Sum of the four categories in Object.values order (housing, food, general, savings). -/
def sumA (a : Allocations) : ℚ := a.housing + a.food + a.general + a.savings

/-- Fixed donor priority for withdrawals (App.tsx line 94). -/
def withdrawalOrder : List Category :=
  [Category.savings, Category.general, Category.food, Category.housing]

/-- The withdrawal loop of updateAllocation (App.tsx lines 96-108): skip the edited
category, break once the remaining difference is below 0.001, skip empty donors,
take min(available, remaining) from each donor.  Returns the allocations
together with the remaining (uncovered) difference. -/
def withdrawLoop (category : Category) (a : Allocations) (remainingDiff : ℚ) :
    List Category → Allocations × ℚ
  | [] => (a, remainingDiff)
  | source :: rest =>
    if source = category then withdrawLoop category a remainingDiff rest
    else if |remainingDiff| < 0.001 then (a, remainingDiff)
    else if aget a source ≤ 0 then withdrawLoop category a remainingDiff rest
    else
      let toTake := min (aget a source) remainingDiff
      withdrawLoop category (aset a source (aget a source - toTake)) (remainingDiff - toTake) rest

/-- The deposit loop of updateAllocation (App.tsx lines 112-122): the freed money
goes entirely to the first target in [savings, general] that is not the edited
category. -/
def depositTo (category : Category) (a : Allocations) (moneyToGive : ℚ) : Allocations :=
  if category = Category.savings then
    aset a Category.general (aget a Category.general + moneyToGive)
  else
    aset a Category.savings (aget a Category.savings + moneyToGive)

/-- App.tsx updateAllocation: clamp, no-op below epsilon, withdraw or deposit, then
absorb any residual discrepancy with the budget into savings. -/
def updateAllocation (netMonthlyIncome : ℚ) (allocations : Allocations)
    (category : Category) (newVal : ℚ) : Allocations :=
  if netMonthlyIncome ≤ 0 then allocations
  else
    let safeVal := max 0 (min newVal netMonthlyIncome)
    let currentVal := aget allocations category
    let diff := safeVal - currentVal
    if |diff| < 0.001 then allocations
    else
      let a1 := aset allocations category safeVal
      let a2 :=
        if 0 < diff then (withdrawLoop category a1 diff withdrawalOrder).1
        else depositTo category a1 |diff|
      let error := netMonthlyIncome - sumA a2
      if 0.001 < |error| then aset a2 Category.savings (aget a2 Category.savings + error)
      else a2

/-- A sequence of rebalance calls applied in order. -/
def applyEdits (netMonthlyIncome : ℚ) (a : Allocations) : List (Category × ℚ) → Allocations
  | [] => a
  | (c, v) :: rest => applyEdits netMonthlyIncome (updateAllocation netMonthlyIncome a c v) rest

/-- Modelled from the spec: the withdrawal process exactly as the claim words it,
iterating donors in order, skipping the edited category, stopping once the
remaining delta is within 0.001 of zero, and taking min(donorBalance, remaining)
from every donor (with no separate skip of empty donors). -/
def withdrawSpec (category : Category) (a : Allocations) (remainingDiff : ℚ) :
    List Category → Allocations × ℚ
  | [] => (a, remainingDiff)
  | source :: rest =>
    if source = category then withdrawSpec category a remainingDiff rest
    else if |remainingDiff| < 0.001 then (a, remainingDiff)
    else
      let toTake := min (aget a source) remainingDiff
      withdrawSpec category (aset a source (aget a source - toTake)) (remainingDiff - toTake) rest

/-! ### Dual-track growth simulator (InvestmentChart, AiAdvisor.tsx lines 244-273) -/

structure GPoint where
  year : ℕ
  investAmount : ℤ
  bankAmount : ℤ
  difference : ℤ
deriving DecidableEq

/-- The chart loop: record the (rounded) balances, then compound for the next year. -/
def growthGo (monthlyInvest monthlyBank investRate bankRate : ℚ) :
    ℕ → ℕ → ℚ → ℚ → List GPoint
  | 0, _, _, _ => []
  | n + 1, year, ia, ba =>
    ⟨year, round ia, round ba, round (ia - ba)⟩ ::
      growthGo monthlyInvest monthlyBank investRate bankRate n (year + 1)
        ((ia + monthlyInvest * 12) * (1 + investRate))
        ((ba + monthlyBank * 12) * (1 + bankRate))

/-- InvestmentChart data: 31 iterations (years 0..30), starting from zero balances,
with the contribution split by investShare and the percentage rates divided by 100. -/
def investmentChartData (monthlyContribution investShare investPct bankPct : ℚ) :
    List GPoint :=
  growthGo (monthlyContribution * investShare) (monthlyContribution * (1 - investShare))
    (investPct / 100) (bankPct / 100) 31 0 0 0

/-- Exact balance of one track before the compounding of year k. -/
def growthBal (monthly rate : ℚ) : ℕ → ℚ
  | 0 => 0
  | k + 1 => (growthBal monthly rate k + monthly * 12) * (1 + rate)

/-! ### Mortgage amortization simulator (HousingSearch.tsx, mortgageData, lines 39-98) -/

structure MortState where
  b1 : ℚ
  b2 : ℚ
  ti1 : ℚ
  ti2 : ℚ
  m1 : ℕ
  m2 : ℕ
  data : List (ℕ × ℤ × ℤ)
deriving DecidableEq

/-- The lockstep month loop (HousingSearch.tsx lines 57-87): record a point at each
12-month boundary while a balance is positive, make the standard payment on b1 and
the accelerated payment on b2, and break once both balances are non-positive. -/
def mortLoop (r pay extra : ℚ) : ℕ → ℕ → MortState → MortState
  | 0, _, st => st
  | fuel + 1, i, st =>
    let st1 : MortState :=
      if i % 12 = 0 ∧ (0 < st.b1 ∨ 0 < st.b2) then
        { st with data := st.data ++ [(i / 12, max 0 (round st.b1), max 0 (round st.b2))] }
      else st
    let st2 : MortState :=
      if 0 < st1.b1 then
        { st1 with
          b1 := st1.b1 - min st1.b1 (pay - st1.b1 * r)
          ti1 := st1.ti1 + st1.b1 * r
          m1 := st1.m1 + 1 }
      else st1
    let st3 : MortState :=
      if 0 < st2.b2 then
        { st2 with
          b2 := st2.b2 - min st2.b2 (pay + extra - st2.b2 * r)
          ti2 := st2.ti2 + st2.b2 * r
          m2 := st2.m2 + 1 }
      else st2
    if st3.b1 ≤ 0 ∧ st3.b2 ≤ 0 then st3 else mortLoop r pay extra fuel (i + 1) st3

structure MortResult where
  interestSaved : ℤ
  timeSavedMonths : ℤ
  totalInterestStandard : ℤ
  months1 : ℕ
  months2 : ℕ
  chartData : List (ℕ × ℤ × ℤ)
deriving DecidableEq

/-- HousingSearch.tsx mortgageData: none (infeasible) when the monthly rate is
non-positive or the payment does not exceed the interest-only amount; otherwise
run the lockstep simulation for up to 720 months (loop indices 0..720). -/
def mortgageData (loanBalance interestRate monthlyPayment extraPrincipal : ℚ) :
    Option MortResult :=
  let r := interestRate / 100 / 12
  if r ≤ 0 ∨ monthlyPayment ≤ loanBalance * r then none
  else
    let st := mortLoop r monthlyPayment extraPrincipal 721 0
      ⟨loanBalance, loanBalance, 0, 0, 0, 0, []⟩
    some
      { interestSaved := round (st.ti1 - st.ti2)
        timeSavedMonths := max 0 ((st.m1 : ℤ) - (st.m2 : ℤ))
        totalInterestStandard := round st.ti1
        months1 := st.m1
        months2 := st.m2
        chartData := st.data }

/-- One month of one schedule: pay interest plus principal capped at the balance;
a schedule whose balance is already non-positive is left unchanged. -/
def payStep (r pay b : ℚ) : ℚ := if 0 < b then b - min b (pay - b * r) else b

/-- Balance of one schedule at the start of month m. -/
def balAfter (r pay principal : ℚ) : ℕ → ℚ
  | 0 => principal
  | m + 1 => payStep r pay (balAfter r pay principal m)

/-- Index of the last month the loop executes, starting from month i with the
given remaining fuel. -/
def lastMonth (r pay extra principal : ℚ) : ℕ → ℕ → ℕ
  | 0, i => i
  | fuel + 1, i =>
    if balAfter r pay principal (i + 1) ≤ 0 ∧ balAfter r (pay + extra) principal (i + 1) ≤ 0
    then i
    else lastMonth r pay extra principal fuel (i + 1)

/-- The chart point recorded at month m: year label and both balances rounded then
floored at 0. -/
def chartPoint (r pay extra principal : ℚ) (m : ℕ) : ℕ × ℤ × ℤ :=
  (m / 12, max 0 (round (balAfter r pay principal m)),
    max 0 (round (balAfter r (pay + extra) principal m)))

/-- The list of chart points produced from month i on, mirroring the control flow
of the loop. -/
def chartPts (r pay extra principal : ℚ) : ℕ → ℕ → List (ℕ × ℤ × ℤ)
  | 0, _ => []
  | fuel + 1, i =>
    (if i % 12 = 0 ∧
        (0 < balAfter r pay principal i ∨ 0 < balAfter r (pay + extra) principal i) then
      [chartPoint r pay extra principal i]
    else []) ++
    (if balAfter r pay principal (i + 1) ≤ 0 ∧ balAfter r (pay + extra) principal (i + 1) ≤ 0
    then []
    else chartPts r pay extra principal fuel (i + 1))

/-! ### Kernel-reducible mirror of the amortization simulator -/

def mortLoopX (r pay extra : ℚ) : ℕ → ℕ → MortState → MortState
  | 0, _, st => st
  | fuel + 1, i, st =>
    let st1 : MortState :=
      if i % 12 = 0 ∧ (0 < st.b1 ∨ 0 < st.b2) then
        { st with data := st.data ++ [(i / 12, max 0 (qround st.b1), max 0 (qround st.b2))] }
      else st
    let st2 : MortState :=
      if 0 < st1.b1 then
        { st1 with
          b1 := qsub st1.b1 (qmin st1.b1 (qsub pay (qmul st1.b1 r)))
          ti1 := qadd st1.ti1 (qmul st1.b1 r)
          m1 := st1.m1 + 1 }
      else st1
    let st3 : MortState :=
      if 0 < st2.b2 then
        { st2 with
          b2 := qsub st2.b2 (qmin st2.b2 (qsub (qadd pay extra) (qmul st2.b2 r)))
          ti2 := qadd st2.ti2 (qmul st2.b2 r)
          m2 := st2.m2 + 1 }
      else st2
    if st3.b1 ≤ 0 ∧ st3.b2 ≤ 0 then st3 else mortLoopX r pay extra fuel (i + 1) st3

def mortgageDataX (loanBalance interestRate monthlyPayment extraPrincipal : ℚ) :
    Option MortResult :=
  let r := qmul interestRate (mkRat 1 1200)
  if r ≤ 0 ∨ monthlyPayment ≤ qmul loanBalance r then none
  else
    let st := mortLoopX r monthlyPayment extraPrincipal 721 0
      ⟨loanBalance, loanBalance, 0, 0, 0, 0, []⟩
    some
      { interestSaved := qround (qsub st.ti1 st.ti2)
        timeSavedMonths := max 0 ((st.m1 : ℤ) - (st.m2 : ℤ))
        totalInterestStandard := qround st.ti1
        months1 := st.m1
        months2 := st.m2
        chartData := st.data }

/-- One full iteration of the loop body at month i, with the data point recorded
before the payments, expressed through payStep. -/
def mortNext (r pay extra : ℚ) (i : ℕ) (st : MortState) : MortState :=
  { b1 := payStep r pay st.b1
    b2 := payStep r (pay + extra) st.b2
    ti1 := if 0 < st.b1 then st.ti1 + st.b1 * r else st.ti1
    ti2 := if 0 < st.b2 then st.ti2 + st.b2 * r else st.ti2
    m1 := if 0 < st.b1 then st.m1 + 1 else st.m1
    m2 := if 0 < st.b2 then st.m2 + 1 else st.m2
    data :=
      if i % 12 = 0 ∧ (0 < st.b1 ∨ 0 < st.b2) then
        st.data ++ [(i / 12, max 0 (round st.b1), max 0 (round st.b2))]
      else st.data }

/-! ### Bridging lemmas for the reducible arithmetic -/

theorem qadd_eq (a b : ℚ) : qadd a b = a + b := by
  rw [qadd, Rat.add_def, Rat.normalize_eq_mkRat]

theorem qsub_eq (a b : ℚ) : qsub a b = a - b := by
  rw [qsub, Rat.sub_def, Rat.normalize_eq_mkRat]

theorem qmul_eq (a b : ℚ) : qmul a b = a * b := by
  rw [qmul, Rat.mul_def, Rat.normalize_eq_mkRat]

theorem qmin_eq (a b : ℚ) : qmin a b = min a b := by
  rw [qmin, min_def]

theorem qround_eq (q : ℚ) : qround q = round q := by
  have h : (mkRat 1 2 : ℚ) = 1 / 2 := by
    rw [Rat.mkRat_eq_div]
    norm_num
  rw [qround, qadd_eq, h, round_eq]

theorem mortLoopX_eq (r pay extra : ℚ) :
    ∀ fuel i st, mortLoopX r pay extra fuel i st = mortLoop r pay extra fuel i st := by
  intro fuel
  induction fuel with
  | zero => intro i st; rfl
  | succ n ih =>
    intro i st
    simp only [mortLoopX, mortLoop, qadd_eq, qsub_eq, qmul_eq, qmin_eq, qround_eq, ih]

theorem mortgageDataX_eq (loanBalance interestRate monthlyPayment extraPrincipal : ℚ) :
    mortgageDataX loanBalance interestRate monthlyPayment extraPrincipal =
      mortgageData loanBalance interestRate monthlyPayment extraPrincipal := by
  have hr : qmul interestRate (mkRat 1 1200) = interestRate / 100 / 12 := by
    rw [qmul_eq, Rat.mkRat_eq_div]
    push_cast
    ring
  simp only [mortgageDataX, mortgageData, hr, qmul_eq, qsub_eq, qround_eq, mortLoopX_eq]

/-! ### Claim C2: amortization infeasibility -/

/-- C2: the simulator returns the infeasible result (none) exactly when the monthly
rate interestRate/100/12 is non-positive or the payment does not exceed the
interest-only amount loanBalance * monthlyRate; in particular it is infeasible for
a 300000 balance at 6.5 percent with a 1000 payment and no extra principal. -/
theorem mortgage_infeasibility_iff :
    (∀ loanBalance interestRate monthlyPayment extraPrincipal : ℚ,
      mortgageData loanBalance interestRate monthlyPayment extraPrincipal = none ↔
        interestRate / 100 / 12 ≤ 0 ∨
          monthlyPayment ≤ loanBalance * (interestRate / 100 / 12)) ∧
    mortgageData 300000 6.5 1000 0 = none := by
  constructor
  · intro loanBalance interestRate monthlyPayment extraPrincipal
    simp only [mortgageData]
    split_ifs with h
    · simpa using h
    · simpa using h
  · have h65 : (6.5 : ℚ) = mkRat 13 2 := by
      rw [Rat.mkRat_eq_div]
      norm_num
    rw [← mortgageDataX_eq, h65]
    decide

/-! ### Claim C6: acceleration benefit at the concrete input -/

/-- C6: for balance 300000, rate 6.5 percent, payment 2500 and extra principal 500,
the simulator reports positive time saved, positive interest saved, and a strictly
shorter accelerated payoff (145 months against 195). -/
theorem mortgage_acceleration_benefit :
    ∃ res, mortgageData 300000 6.5 2500 500 = some res ∧
      0 < res.timeSavedMonths ∧ 0 < res.interestSaved ∧ res.months2 < res.months1 := by
  have h65 : (6.5 : ℚ) = mkRat 13 2 := by
    rw [Rat.mkRat_eq_div]
    norm_num
  have key : mortgageData 300000 6.5 2500 500 = some
      { interestSaved := 52587
        timeSavedMonths := 50
        totalInterestStandard := 185846
        months1 := 195
        months2 := 145
        chartData := [(0, 300000, 300000), (1, 289181, 282999), (2, 277638, 264860),
          (3, 265322, 245506), (4, 252181, 224856), (5, 238160, 202823),
          (6, 223200, 179315), (7, 207238, 154232), (8, 190207, 127469),
          (9, 172036, 98913), (10, 152647, 68446), (11, 131960, 35937),
          (12, 109888, 1252), (13, 86337, 0), (14, 61209, 0), (15, 34398, 0),
          (16, 5792, 0)] } := by
    rw [← mortgageDataX_eq, h65]
    decide
  exact ⟨_, key, by decide, by decide, by decide⟩

/-! ### Claim C7: end-to-end scenario at income 60000, state rate 0 -/

/-- C7: for income 60000 and state base rate 0, taxable income is 45400, the
federal tax is the bracket-table value at 45400, FICA is 4590, state tax is 0,
net monthly income is (60000 - federal - 4590) / 12, the initial allocations are
the 35/15/20/30 percent template of net monthly income, and they sum to the net
monthly income within 0.001. -/
theorem end_to_end_scenario :
    taxableIncome 60000 = 45400 ∧
    (calculateBudget 60000 0).taxes.federal = federalTax 45400 ∧
    (calculateBudget 60000 0).taxes.fica = 4590 ∧
    (calculateBudget 60000 0).taxes.state = 0 ∧
    (calculateBudget 60000 0).netMonthlyIncome = (60000 - federalTax 45400 - 4590) / 12 ∧
    (calculateBudget 60000 0).allocations.housing =
      (calculateBudget 60000 0).netMonthlyIncome * 0.35 ∧
    (calculateBudget 60000 0).allocations.food =
      (calculateBudget 60000 0).netMonthlyIncome * 0.15 ∧
    (calculateBudget 60000 0).allocations.general =
      (calculateBudget 60000 0).netMonthlyIncome * 0.20 ∧
    (calculateBudget 60000 0).allocations.savings =
      (calculateBudget 60000 0).netMonthlyIncome * 0.30 ∧
    |sumA (calculateBudget 60000 0).allocations -
        (calculateBudget 60000 0).netMonthlyIncome| ≤ 0.001 := by
  norm_num [calculateBudget, taxableIncome, federalTax, sumA]

/-! ### Claim C5: tax total is not monotone (code bug at the top bracket constant) -/

/-- C5: evaluation at the failing input.  With state base rate 0 the total estimated
tax at income 623950.5 is strictly smaller than at the lower income 623950, because
the cumulative constant of the top federal bracket is 183647 instead of the
continuous value 183647.25, so the claimed monotonicity fails on the code. -/
theorem tax_total_not_monotone :
    (calculateBudget (1247901 / 2) 0).taxes.total < (calculateBudget 623950 0).taxes.total := by
  norm_num [calculateBudget, taxableIncome, federalTax]

/-! ### Claim C10: continuity of the bracket table -/

/-- C10 counterexample: continuity fails at the 609350 boundary.  If the top
cumulative constant matched the lower-bracket formula, the tax one unit above the
boundary would be the boundary value plus 0.37; instead it is 0.25 lower. -/
theorem federalTax_discontinuous_at_top :
    federalTax (609350 + 1) ≠ federalTax 609350 + 0.37 * 1 := by
  norm_num [federalTax]

/-- C10 amended: the bracket chain is continuous at the boundaries 11600, 47150,
100525, 191950 and 243725 (just above each boundary the tax is the boundary value
plus the upper rate times the excess), but at 609350 the table jumps down by
exactly 0.25: just above, the tax is the boundary value minus 0.25 plus 0.37
times the excess, because the constant 183647 differs from the continuous value
183647.25. -/
theorem federalTax_boundary_behaviour :
    (∀ x : ℚ, 0 < x → x ≤ 35550 →
      federalTax (11600 + x) = federalTax 11600 + 0.12 * x) ∧
    (∀ x : ℚ, 0 < x → x ≤ 53375 →
      federalTax (47150 + x) = federalTax 47150 + 0.22 * x) ∧
    (∀ x : ℚ, 0 < x → x ≤ 91425 →
      federalTax (100525 + x) = federalTax 100525 + 0.24 * x) ∧
    (∀ x : ℚ, 0 < x → x ≤ 51775 →
      federalTax (191950 + x) = federalTax 191950 + 0.32 * x) ∧
    (∀ x : ℚ, 0 < x → x ≤ 365625 →
      federalTax (243725 + x) = federalTax 243725 + 0.35 * x) ∧
    (∀ x : ℚ, 0 < x →
      federalTax (609350 + x) = federalTax 609350 - 0.25 + 0.37 * x) := by
  have e1 : federalTax 11600 = 1160 := by norm_num [federalTax]
  have e2 : federalTax 47150 = 5426 := by norm_num [federalTax]
  have e3 : federalTax 100525 = 17168.5 := by norm_num [federalTax]
  have e4 : federalTax 191950 = 39110.5 := by norm_num [federalTax]
  have e5 : federalTax 243725 = 55678.5 := by norm_num [federalTax]
  have e6 : federalTax 609350 = 183647.25 := by norm_num [federalTax]
  refine ⟨fun x hx0 hx => ?_, fun x hx0 hx => ?_, fun x hx0 hx => ?_,
    fun x hx0 hx => ?_, fun x hx0 hx => ?_, fun x hx0 => ?_⟩
  · rw [e1]
    simp only [federalTax]
    rw [if_neg (by linarith), if_neg (by linarith), if_neg (by linarith),
      if_neg (by linarith), if_neg (by linarith), if_pos (by linarith)]
    ring
  · rw [e2]
    simp only [federalTax]
    rw [if_neg (by linarith), if_neg (by linarith), if_neg (by linarith),
      if_neg (by linarith), if_pos (by linarith)]
    ring
  · rw [e3]
    simp only [federalTax]
    rw [if_neg (by linarith), if_neg (by linarith), if_neg (by linarith),
      if_pos (by linarith)]
    ring
  · rw [e4]
    simp only [federalTax]
    rw [if_neg (by linarith), if_neg (by linarith), if_pos (by linarith)]
    ring
  · rw [e5]
    simp only [federalTax]
    rw [if_neg (by linarith), if_pos (by linarith)]
    ring
  · rw [e6]
    simp only [federalTax]
    rw [if_pos (by linarith)]
    ring

/-- C10 witness: instantiating the amended statement at the 243725 boundary with
the full bracket width 365625 recovers the boundary value at 609350, and
instantiating the top-bracket statement at 1 exhibits the 0.25 downward jump. -/
theorem federalTax_boundary_behaviour_witness :
    ((0 : ℚ) < 365625 ∧ (365625 : ℚ) ≤ 365625 ∧
      federalTax (243725 + 365625) = federalTax 243725 + 0.35 * 365625) ∧
    ((0 : ℚ) < 1 ∧
      federalTax (609350 + 1) = federalTax 609350 - 0.25 + 0.37 * 1) :=
  ⟨⟨by norm_num, by norm_num,
      federalTax_boundary_behaviour.2.2.2.2.1 365625 (by norm_num) (by norm_num)⟩,
    ⟨by norm_num, federalTax_boundary_behaviour.2.2.2.2.2 1 (by norm_num)⟩⟩

/-! ### Claim C4: growth series shape -/

theorem growthGo_eq (mi mb ri rb : ℚ) :
    ∀ n j, growthGo mi mb ri rb n j (growthBal mi ri j) (growthBal mb rb j) =
      (List.range' j n).map fun k =>
        ⟨k, round (growthBal mi ri k), round (growthBal mb rb k),
          round (growthBal mi ri k - growthBal mb rb k)⟩ := by
  intro n
  induction n with
  | zero => intro j; rfl
  | succ m ih =>
    intro j
    rw [List.range'_succ]
    have h1 : growthGo mi mb ri rb (m + 1) j (growthBal mi ri j) (growthBal mb rb j) =
        ⟨j, round (growthBal mi ri j), round (growthBal mb rb j),
          round (growthBal mi ri j - growthBal mb rb j)⟩ ::
          growthGo mi mb ri rb m (j + 1) (growthBal mi ri (j + 1)) (growthBal mb rb (j + 1)) := rfl
    rw [h1, ih (j + 1), List.map_cons]

theorem investmentChartData_eq (c share ip bp : ℚ) :
    investmentChartData c share ip bp =
      (List.range 31).map fun k =>
        ⟨k, round (growthBal (c * share) (ip / 100) k),
          round (growthBal (c * (1 - share)) (bp / 100) k),
          round (growthBal (c * share) (ip / 100) k -
            growthBal (c * (1 - share)) (bp / 100) k)⟩ := by
  have h0 : investmentChartData c share ip bp =
      growthGo (c * share) (c * (1 - share)) (ip / 100) (bp / 100) 31 0
        (growthBal (c * share) (ip / 100) 0) (growthBal (c * (1 - share)) (bp / 100) 0) := rfl
  rw [h0, growthGo_eq, List.range_eq_range']

/-- C4: for non-negative contribution, split share in the unit interval and
non-negative rates, the 30-year chart has exactly 31 points for years 0..30, the
year-0 point is all zeroes, point k records the rounded balances before the
compounding of year k, and the underlying balances follow
balance of k+1 = (balance of k + monthly * 12) * (1 + rate) with each track's
monthly amount being its share of the contribution. -/
theorem growth_series (c share ip bp : ℚ)
    (_hc : 0 ≤ c) (_hr0 : 0 ≤ share) (_hr1 : share ≤ 1) (_hip : 0 ≤ ip) (_hbp : 0 ≤ bp) :
    (investmentChartData c share ip bp).length = 31 ∧
    (investmentChartData c share ip bp)[0]? = some ⟨0, 0, 0, 0⟩ ∧
    (∀ k, k < 31 → (investmentChartData c share ip bp)[k]? =
      some ⟨k, round (growthBal (c * share) (ip / 100) k),
        round (growthBal (c * (1 - share)) (bp / 100) k),
        round (growthBal (c * share) (ip / 100) k -
          growthBal (c * (1 - share)) (bp / 100) k)⟩) ∧
    growthBal (c * share) (ip / 100) 0 = 0 ∧
    growthBal (c * (1 - share)) (bp / 100) 0 = 0 ∧
    (∀ (m r : ℚ) (k : ℕ),
      growthBal m r (k + 1) = (growthBal m r k + m * 12) * (1 + r)) := by
  refine ⟨?_, ?_, ?_, rfl, rfl, fun m r k => rfl⟩
  · rw [investmentChartData_eq, List.length_map, List.length_range]
  · rw [investmentChartData_eq]
    simp [List.getElem?_map, growthBal]
  · intro k hk
    rw [investmentChartData_eq]
    simp [List.getElem?_map, List.getElem?_range, hk]

/-- C4 witness: the 31-point property instantiated at contribution 100, full
investment split, 7 and 4 percent rates. -/
theorem growth_series_witness :
    (0 : ℚ) ≤ 100 ∧ (0 : ℚ) ≤ 1 ∧ (1 : ℚ) ≤ 1 ∧ (0 : ℚ) ≤ 7 ∧ (0 : ℚ) ≤ 4 ∧
    (investmentChartData 100 1 7 4).length = 31 ∧
    (investmentChartData 100 1 7 4)[0]? = some ⟨0, 0, 0, 0⟩ :=
  ⟨by decide, by decide, by decide, by decide, by decide,
    (growth_series 100 1 7 4 (by decide) (by decide) (by decide) (by decide) (by decide)).1,
    (growth_series 100 1 7 4 (by decide) (by decide) (by decide) (by decide) (by decide)).2.1⟩

/-! ### Claim C9: lockstep domination invariants of the amortization loop -/

theorem sub_min_self (x y : ℚ) : x - min x y = max 0 (x - y) := by
  rcases le_total x y with h | h
  · rw [min_eq_left h, max_eq_left (by linarith)]
    ring
  · rw [min_eq_right h, max_eq_right (by linarith)]

theorem payPair_inv (r pay extra b1 b2 : ℚ) (hr : 0 ≤ r) (he : 0 ≤ extra) (h : b2 ≤ b1) :
    (if 0 < b2 then b2 - min b2 (pay + extra - b2 * r) else b2) ≤
      (if 0 < b1 then b1 - min b1 (pay - b1 * r) else b1) := by
  by_cases h2 : 0 < b2
  · rw [if_pos h2, if_pos (lt_of_lt_of_le h2 h), sub_min_self, sub_min_self]
    apply max_le_max le_rfl
    have hmul : b2 * r ≤ b1 * r := mul_le_mul_of_nonneg_right h hr
    linarith
  · rw [if_neg h2]
    by_cases h1 : 0 < b1
    · rw [if_pos h1, sub_min_self]
      have hmax := le_max_left (0 : ℚ) (b1 - (pay - b1 * r))
      linarith [le_of_not_lt h2]
    · rw [if_neg h1]
      exact h

theorem tiStep_inv (r b1 b2 ti1 ti2 : ℚ) (hr : 0 ≤ r) (hb : b2 ≤ b1) (hti : ti2 ≤ ti1) :
    (if 0 < b2 then ti2 + b2 * r else ti2) ≤ (if 0 < b1 then ti1 + b1 * r else ti1) := by
  by_cases h2 : 0 < b2
  · rw [if_pos h2, if_pos (lt_of_lt_of_le h2 hb)]
    have hmul : b2 * r ≤ b1 * r := mul_le_mul_of_nonneg_right hb hr
    linarith
  · rw [if_neg h2]
    by_cases h1 : 0 < b1
    · rw [if_pos h1]
      have hmul : 0 ≤ b1 * r := mul_nonneg (le_of_lt h1) hr
      linarith
    · rw [if_neg h1]
      exact hti

theorem mStep_inv (b1 b2 : ℚ) (m1 m2 : ℕ) (hb : b2 ≤ b1) (hm : m2 ≤ m1) :
    (if 0 < b2 then m2 + 1 else m2) ≤ (if 0 < b1 then m1 + 1 else m1) := by
  by_cases h2 : 0 < b2
  · rw [if_pos h2, if_pos (lt_of_lt_of_le h2 hb)]
    omega
  · rw [if_neg h2]
    by_cases h1 : 0 < b1
    · rw [if_pos h1]
      omega
    · rw [if_neg h1]
      exact hm

/-- C9: with non-negative extra principal, every month of the lockstep simulation
keeps the accelerated balance at or below the standard balance, the accumulated
accelerated interest at or below the accumulated standard interest, and the
accelerated month count at or below the standard one; consequently, on every
feasible input the reported interestSaved is non-negative and the accelerated
schedule never takes more months than the standard one. -/
theorem mortgage_lockstep_invariants :
    (∀ r pay extra : ℚ, 0 ≤ r → 0 ≤ extra → ∀ fuel i st,
      st.b2 ≤ st.b1 → st.ti2 ≤ st.ti1 → st.m2 ≤ st.m1 →
      (mortLoop r pay extra fuel i st).b2 ≤ (mortLoop r pay extra fuel i st).b1 ∧
      (mortLoop r pay extra fuel i st).ti2 ≤ (mortLoop r pay extra fuel i st).ti1 ∧
      (mortLoop r pay extra fuel i st).m2 ≤ (mortLoop r pay extra fuel i st).m1) ∧
    (∀ loanBalance interestRate monthlyPayment extraPrincipal res,
      0 ≤ extraPrincipal →
      mortgageData loanBalance interestRate monthlyPayment extraPrincipal = some res →
      0 ≤ res.interestSaved ∧ res.months2 ≤ res.months1) := by
  have part1 : ∀ r pay extra : ℚ, 0 ≤ r → 0 ≤ extra → ∀ fuel i st,
      st.b2 ≤ st.b1 → st.ti2 ≤ st.ti1 → st.m2 ≤ st.m1 →
      (mortLoop r pay extra fuel i st).b2 ≤ (mortLoop r pay extra fuel i st).b1 ∧
      (mortLoop r pay extra fuel i st).ti2 ≤ (mortLoop r pay extra fuel i st).ti1 ∧
      (mortLoop r pay extra fuel i st).m2 ≤ (mortLoop r pay extra fuel i st).m1 := by
    intro r pay extra hr he fuel
    induction fuel with
    | zero => exact fun i st hb hti hm => ⟨hb, hti, hm⟩
    | succ n ih =>
      intro i st hb hti hm
      set st1 : MortState :=
        if i % 12 = 0 ∧ (0 < st.b1 ∨ 0 < st.b2) then
          { st with data := st.data ++ [(i / 12, max 0 (round st.b1), max 0 (round st.b2))] }
        else st with hst1
      set st2 : MortState :=
        if 0 < st1.b1 then
          { st1 with
            b1 := st1.b1 - min st1.b1 (pay - st1.b1 * r)
            ti1 := st1.ti1 + st1.b1 * r
            m1 := st1.m1 + 1 }
        else st1 with hst2
      set st3 : MortState :=
        if 0 < st2.b2 then
          { st2 with
            b2 := st2.b2 - min st2.b2 (pay + extra - st2.b2 * r)
            ti2 := st2.ti2 + st2.b2 * r
            m2 := st2.m2 + 1 }
        else st2 with hst3
      have hunf : mortLoop r pay extra (n + 1) i st =
          if st3.b1 ≤ 0 ∧ st3.b2 ≤ 0 then st3 else mortLoop r pay extra n (i + 1) st3 := rfl
      have s1b1 : st1.b1 = st.b1 := by rw [hst1]; split_ifs <;> rfl
      have s1b2 : st1.b2 = st.b2 := by rw [hst1]; split_ifs <;> rfl
      have s1t1 : st1.ti1 = st.ti1 := by rw [hst1]; split_ifs <;> rfl
      have s1t2 : st1.ti2 = st.ti2 := by rw [hst1]; split_ifs <;> rfl
      have s1m1 : st1.m1 = st.m1 := by rw [hst1]; split_ifs <;> rfl
      have s1m2 : st1.m2 = st.m2 := by rw [hst1]; split_ifs <;> rfl
      have s2b1 : st2.b1 = if 0 < st1.b1 then st1.b1 - min st1.b1 (pay - st1.b1 * r) else st1.b1 := by
        rw [hst2]; split_ifs <;> rfl
      have s2t1 : st2.ti1 = if 0 < st1.b1 then st1.ti1 + st1.b1 * r else st1.ti1 := by
        rw [hst2]; split_ifs <;> rfl
      have s2m1 : st2.m1 = if 0 < st1.b1 then st1.m1 + 1 else st1.m1 := by
        rw [hst2]; split_ifs <;> rfl
      have s2b2 : st2.b2 = st1.b2 := by rw [hst2]; split_ifs <;> rfl
      have s2t2 : st2.ti2 = st1.ti2 := by rw [hst2]; split_ifs <;> rfl
      have s2m2 : st2.m2 = st1.m2 := by rw [hst2]; split_ifs <;> rfl
      have s3b2 : st3.b2 =
          if 0 < st2.b2 then st2.b2 - min st2.b2 (pay + extra - st2.b2 * r) else st2.b2 := by
        rw [hst3]; split_ifs <;> rfl
      have s3t2 : st3.ti2 = if 0 < st2.b2 then st2.ti2 + st2.b2 * r else st2.ti2 := by
        rw [hst3]; split_ifs <;> rfl
      have s3m2 : st3.m2 = if 0 < st2.b2 then st2.m2 + 1 else st2.m2 := by
        rw [hst3]; split_ifs <;> rfl
      have s3b1 : st3.b1 = st2.b1 := by rw [hst3]; split_ifs <;> rfl
      have s3t1 : st3.ti1 = st2.ti1 := by rw [hst3]; split_ifs <;> rfl
      have s3m1 : st3.m1 = st2.m1 := by rw [hst3]; split_ifs <;> rfl
      have hb3 : st3.b2 ≤ st3.b1 := by
        rw [s3b2, s3b1, s2b1, s2b2, s1b1, s1b2]
        exact payPair_inv r pay extra st.b1 st.b2 hr he hb
      have hti3 : st3.ti2 ≤ st3.ti1 := by
        rw [s3t2, s3t1, s2t1, s2t2, s2b2, s1t1, s1t2, s1b1, s1b2]
        exact tiStep_inv r st.b1 st.b2 st.ti1 st.ti2 hr hb hti
      have hm3 : st3.m2 ≤ st3.m1 := by
        rw [s3m2, s3m1, s2m1, s2m2, s2b2, s1m1, s1m2, s1b1, s1b2]
        exact mStep_inv st.b1 st.b2 st.m1 st.m2 hb hm
      rw [hunf]
      split_ifs with hstop
      · exact ⟨hb3, hti3, hm3⟩
      · exact ih (i + 1) st3 hb3 hti3 hm3
  refine ⟨part1, ?_⟩
  intro loanBalance interestRate monthlyPayment extraPrincipal res he hsome
  rw [mortgageData] at hsome
  split_ifs at hsome with hguard
  push_neg at hguard
  have hr : 0 ≤ interestRate / 100 / 12 := le_of_lt hguard.1
  have hinv := part1 (interestRate / 100 / 12) monthlyPayment extraPrincipal hr he 721 0
    ⟨loanBalance, loanBalance, 0, 0, 0, 0, []⟩ le_rfl le_rfl le_rfl
  rw [Option.some_inj] at hsome
  rw [← hsome]
  constructor
  · rw [round_eq]
    exact Int.floor_nonneg.mpr (by linarith [hinv.2.1])
  · exact hinv.2.2

/-- C9 witness: the feasible input 100/12/60/10 with non-negative extra principal;
the simulator result has non-negative interest saved and an accelerated month
count at most the standard one. -/
theorem mortgage_lockstep_invariants_witness :
    (0 : ℚ) ≤ 10 ∧
    mortgageData 100 12 60 10 =
      some { interestSaved := 0, timeSavedMonths := 0, totalInterestStandard := 1,
             months1 := 2, months2 := 2, chartData := [(0, 100, 100)] } ∧
    (0 : ℤ) ≤ (0 : ℤ) ∧ (2 : ℕ) ≤ 2 :=
  ⟨by decide, by rw [← mortgageDataX_eq]; decide,
    mortgage_lockstep_invariants.2 100 12 60 10
      { interestSaved := 0, timeSavedMonths := 0, totalInterestStandard := 1,
        months1 := 2, months2 := 2, chartData := [(0, 100, 100)] }
      (by decide) (by rw [← mortgageDataX_eq]; decide)⟩

/-! ### Claim C8: which boundaries receive chart points -/

theorem balAfter_succ (r pay principal : ℚ) (m : ℕ) :
    balAfter r pay principal (m + 1) = payStep r pay (balAfter r pay principal m) := rfl

theorem mortLoop_succ (r pay extra : ℚ) (n i : ℕ) (st : MortState) :
    mortLoop r pay extra (n + 1) i st =
      if (mortNext r pay extra i st).b1 ≤ 0 ∧ (mortNext r pay extra i st).b2 ≤ 0 then
        mortNext r pay extra i st
      else mortLoop r pay extra n (i + 1) (mortNext r pay extra i st) := by
  by_cases hm : i % 12 = 0 <;>
    by_cases hp1 : 0 < st.b1 <;>
      by_cases hp2 : 0 < st.b2 <;>
        simp [mortLoop, mortNext, payStep, hm, hp1, hp2]

theorem lastMonth_ge (r pay extra principal : ℚ) :
    ∀ fuel i, i ≤ lastMonth r pay extra principal fuel i := by
  intro fuel
  induction fuel with
  | zero => exact fun i => le_refl i
  | succ n ih =>
    intro i
    rw [lastMonth]
    split_ifs
    · exact le_refl i
    · exact le_trans (Nat.le_succ i) (ih (i + 1))

theorem mortLoop_data (r pay extra principal : ℚ) :
    ∀ fuel i st, st.b1 = balAfter r pay principal i →
      st.b2 = balAfter r (pay + extra) principal i →
      (mortLoop r pay extra fuel i st).data =
        st.data ++ chartPts r pay extra principal fuel i := by
  intro fuel
  induction fuel with
  | zero => intro i st hb1 hb2; simp [mortLoop, chartPts]
  | succ n ih =>
    intro i st hb1 hb2
    have hb1n : (mortNext r pay extra i st).b1 = balAfter r pay principal (i + 1) := by
      rw [balAfter_succ, ← hb1]; rfl
    have hb2n : (mortNext r pay extra i st).b2 = balAfter r (pay + extra) principal (i + 1) := by
      rw [balAfter_succ, ← hb2]; rfl
    have hdn : (mortNext r pay extra i st).data =
        if i % 12 = 0 ∧ (0 < st.b1 ∨ 0 < st.b2) then
          st.data ++ [(i / 12, max 0 (round st.b1), max 0 (round st.b2))]
        else st.data := rfl
    rw [mortLoop_succ, hb1n, hb2n]
    simp only [chartPts, chartPoint]
    rw [← hb1, ← hb2]
    by_cases hstop :
        balAfter r pay principal (i + 1) ≤ 0 ∧ balAfter r (pay + extra) principal (i + 1) ≤ 0
    · rw [if_pos hstop, if_pos hstop, hdn]
      by_cases hpt : i % 12 = 0 ∧ (0 < st.b1 ∨ 0 < st.b2)
      · rw [if_pos hpt, if_pos hpt]
        simp
      · rw [if_neg hpt, if_neg hpt]
        simp
    · rw [if_neg hstop, if_neg hstop, ih (i + 1) (mortNext r pay extra i st) hb1n hb2n, hdn]
      by_cases hpt : i % 12 = 0 ∧ (0 < st.b1 ∨ 0 < st.b2)
      · rw [if_pos hpt, if_pos hpt]
        simp
      · rw [if_neg hpt, if_neg hpt]
        simp

theorem chartPts_eq (r pay extra principal : ℚ) :
    ∀ fuel i,
      ¬(balAfter r pay principal i ≤ 0 ∧ balAfter r (pay + extra) principal i ≤ 0) →
      chartPts r pay extra principal (fuel + 1) i =
        ((List.range' i (lastMonth r pay extra principal fuel i - i + 1)).filter
          (fun m => m % 12 == 0)).map (chartPoint r pay extra principal) := by
  intro fuel
  induction fuel with
  | zero =>
    intro i hpos
    have hlast : lastMonth r pay extra principal 0 i = i := rfl
    rw [hlast]
    have hn : i - i + 1 = 1 := by omega
    rw [hn, List.range'_one]
    have hor : 0 < balAfter r pay principal i ∨ 0 < balAfter r (pay + extra) principal i := by
      rcases not_and_or.mp hpos with h | h
      · exact Or.inl (lt_of_not_le h)
      · exact Or.inr (lt_of_not_le h)
    by_cases hm : i % 12 = 0
    · simp [chartPts, hm, hor]
    · simp [chartPts, hm]
  | succ n ih =>
    intro i hpos
    have hor : 0 < balAfter r pay principal i ∨ 0 < balAfter r (pay + extra) principal i := by
      rcases not_and_or.mp hpos with h | h
      · exact Or.inl (lt_of_not_le h)
      · exact Or.inr (lt_of_not_le h)
    by_cases hstop :
        balAfter r pay principal (i + 1) ≤ 0 ∧ balAfter r (pay + extra) principal (i + 1) ≤ 0
    · have hlast : lastMonth r pay extra principal (n + 1) i = i := by
        rw [lastMonth, if_pos hstop]
      rw [hlast]
      have hn : i - i + 1 = 1 := by omega
      rw [hn, List.range'_one]
      by_cases hm : i % 12 = 0
      · simp [chartPts, hm, hor, hstop]
      · simp [chartPts, hm, hstop]
    · have hlast : lastMonth r pay extra principal (n + 1) i =
          lastMonth r pay extra principal n (i + 1) := by
        rw [lastMonth, if_neg hstop]
      rw [hlast]
      have hge : i + 1 ≤ lastMonth r pay extra principal n (i + 1) :=
        lastMonth_ge r pay extra principal n (i + 1)
      have hn : lastMonth r pay extra principal n (i + 1) - i + 1 =
          (lastMonth r pay extra principal n (i + 1) - (i + 1) + 1) + 1 := by omega
      rw [hn, List.range'_succ]
      have hrec := ih (i + 1) hstop
      have hcp : chartPts r pay extra principal (n + 1 + 1) i =
          (if i % 12 = 0 ∧
              (0 < balAfter r pay principal i ∨ 0 < balAfter r (pay + extra) principal i) then
            [chartPoint r pay extra principal i]
          else []) ++
          (if balAfter r pay principal (i + 1) ≤ 0 ∧
              balAfter r (pay + extra) principal (i + 1) ≤ 0 then []
          else chartPts r pay extra principal (n + 1) (i + 1)) := rfl
      rw [hcp, if_neg hstop, hrec, List.range'_succ]
      by_cases hm : i % 12 = 0
      · rw [if_pos ⟨hm, hor⟩]
        simp [List.filter_cons, hm]
      · rw [if_neg fun hand => hm hand.1]
        simp [List.filter_cons, hm]

/-- C8 counterexample: for the feasible input 100/12/60/0 both schedules pay off at
month 2, so the 12-month boundary at or after both payoffs is month 12 (year 1);
but the recorded series has year labels [0] only - the loop breaks at month 1 and
never reaches the boundary at or after the payoffs, so the claim fails. -/
theorem mortgage_chart_missing_final_boundary :
    (mortgageData 100 12 60 0).map
      (fun res => (res.months1, res.months2, res.chartData.map Prod.fst)) =
      some (2, 2, [0]) := by
  rw [← mortgageDataX_eq]
  decide

/-- C8 amended: for every feasible input with positive principal, the recorded
series consists of exactly one point for each 12-month boundary among the months
the loop executes (months 0 through the last executed month), each labeled by its
year index and holding both balances rounded and floored at 0; boundaries at or
after the month in which both schedules are paid off receive no point. -/
theorem mortgage_chart_boundaries :
    ∀ loanBalance interestRate monthlyPayment extraPrincipal res,
      mortgageData loanBalance interestRate monthlyPayment extraPrincipal = some res →
      0 < loanBalance →
      res.chartData =
        ((List.range (lastMonth (interestRate / 100 / 12) monthlyPayment extraPrincipal
            loanBalance 720 0 + 1)).filter (fun m => m % 12 == 0)).map
          (chartPoint (interestRate / 100 / 12) monthlyPayment extraPrincipal loanBalance) := by
  intro loanBalance interestRate monthlyPayment extraPrincipal res hsome hP
  rw [mortgageData] at hsome
  split_ifs at hsome with hguard
  rw [Option.some_inj] at hsome
  rw [← hsome]
  dsimp only
  have hdata := mortLoop_data (interestRate / 100 / 12) monthlyPayment extraPrincipal
    loanBalance 721 0 ⟨loanBalance, loanBalance, 0, 0, 0, 0, []⟩ rfl rfl
  rw [hdata, List.nil_append]
  have hpos : ¬(balAfter (interestRate / 100 / 12) monthlyPayment loanBalance 0 ≤ 0 ∧
      balAfter (interestRate / 100 / 12) (monthlyPayment + extraPrincipal) loanBalance 0 ≤ 0) :=
    fun hcon => absurd hcon.1 (not_le.mpr hP)
  have hpts := chartPts_eq (interestRate / 100 / 12) monthlyPayment extraPrincipal
    loanBalance 720 0 hpos
  rw [show (721 : ℕ) = 720 + 1 from rfl, hpts]
  have hz : lastMonth (interestRate / 100 / 12) monthlyPayment extraPrincipal
      loanBalance 720 0 - 0 + 1 =
      lastMonth (interestRate / 100 / 12) monthlyPayment extraPrincipal loanBalance 720 0 + 1 := by
    omega
  rw [hz, ← List.range_eq_range']

/-- C8 witness: the amended statement instantiated at the feasible input 100/12/60/0
with positive principal. -/
theorem mortgage_chart_boundaries_witness :
    mortgageData 100 12 60 0 =
      some { interestSaved := 0, timeSavedMonths := 0, totalInterestStandard := 1,
             months1 := 2, months2 := 2, chartData := [(0, 100, 100)] } ∧
    (0 : ℚ) < 100 ∧
    ({ interestSaved := 0, timeSavedMonths := 0, totalInterestStandard := 1,
       months1 := 2, months2 := 2, chartData := [(0, 100, 100)] } : MortResult).chartData =
      ((List.range (lastMonth (12 / 100 / 12) 60 0 100 720 0 + 1)).filter
        (fun m => m % 12 == 0)).map (chartPoint (12 / 100 / 12) 60 0 100) :=
  ⟨by rw [← mortgageDataX_eq]; decide, by decide,
    mortgage_chart_boundaries 100 12 60 0 _ (by rw [← mortgageDataX_eq]; decide) (by decide)⟩

/-! ### Claim C1: conservation and non-negativity under rebalancing -/

theorem aget_aset_self (a : Allocations) (c : Category) (v : ℚ) :
    aget (aset a c v) c = v := by
  cases c <;> rfl

theorem aget_aset_ne (a : Allocations) (c d : Category) (v : ℚ) (h : d ≠ c) :
    aget (aset a c v) d = aget a d := by
  cases c <;> cases d <;> first | rfl | exact absurd rfl h

theorem aset_aget_self (a : Allocations) (c : Category) :
    aset a c (aget a c) = a := by
  cases c <;> rfl

theorem withdrawLoop_nonneg (category : Category) :
    ∀ (order : List Category) (a : Allocations) (rd : ℚ) (c : Category),
      0 ≤ aget a c → 0 ≤ aget (withdrawLoop category a rd order).1 c := by
  intro order
  induction order with
  | nil => exact fun a rd c h => h
  | cons src rest ih =>
    intro a rd c h
    simp only [withdrawLoop]
    split_ifs with h1 h2 h3
    · exact ih a rd c h
    · exact h
    · exact ih a rd c h
    · apply ih
      by_cases hc : c = src
      · subst hc
        rw [aget_aset_self]
        have := min_le_left (aget a c) rd
        linarith
      · rw [aget_aset_ne a src c _ hc]
        exact h

theorem sumA_aset_savings (a : Allocations) (v : ℚ) :
    sumA (aset a Category.savings v) = a.housing + a.food + a.general + v := rfl

theorem updateAllocation_preserves (net : ℚ) (a : Allocations) (c : Category) (v : ℚ)
    (h1 : 0 ≤ a.housing) (h2 : 0 ≤ a.food) (h3 : 0 ≤ a.general)
    (hsum : |sumA a - net| ≤ 0.001) :
    0 ≤ (updateAllocation net a c v).housing ∧ 0 ≤ (updateAllocation net a c v).food ∧
    0 ≤ (updateAllocation net a c v).general ∧
    |sumA (updateAllocation net a c v) - net| ≤ 0.001 := by
  have hsafe : 0 ≤ max 0 (min v net) := le_max_left 0 _
  have ha1 : ∀ d : Category, 0 ≤ aget a d →
      0 ≤ aget (aset a c (max 0 (min v net))) d := by
    intro d hd
    by_cases hdc : d = c
    · subst hdc
      rw [aget_aset_self]
      exact hsafe
    · rw [aget_aset_ne a c d _ hdc]
      exact hd
  have ha2w : ∀ d : Category, 0 ≤ aget a d →
      0 ≤ aget (withdrawLoop c (aset a c (max 0 (min v net)))
        (max 0 (min v net) - aget a c) withdrawalOrder).1 d :=
    fun d hd => withdrawLoop_nonneg c withdrawalOrder _ _ d (ha1 d hd)
  have ha2d : ∀ d : Category, 0 ≤ aget a d →
      0 ≤ aget (depositTo c (aset a c (max 0 (min v net)))
        |max 0 (min v net) - aget a c|) d := by
    intro d hd
    rw [depositTo]
    split_ifs with hcs
    · by_cases hdg : d = Category.general
      · subst hdg
        rw [aget_aset_self]
        exact add_nonneg (ha1 _ hd) (abs_nonneg _)
      · rw [aget_aset_ne _ Category.general d _ hdg]
        exact ha1 d hd
    · by_cases hds : d = Category.savings
      · subst hds
        rw [aget_aset_self]
        exact add_nonneg (ha1 _ hd) (abs_nonneg _)
      · rw [aget_aset_ne _ Category.savings d _ hds]
        exact ha1 d hd
  have hcorr : ∀ b : Allocations,
      sumA (aset b Category.savings (aget b Category.savings + (net - sumA b))) = net := by
    intro b
    rw [sumA_aset_savings]
    show b.housing + b.food + b.general + (b.savings + (net - sumA b)) = net
    rw [sumA]
    ring
  have hsavne : ∀ (b : Allocations) (w : ℚ) (d : Category), d ≠ Category.savings →
      aget (aset b Category.savings w) d = aget b d :=
    fun b w d hd => aget_aset_ne b Category.savings d w hd
  simp only [updateAllocation]
  split_ifs with hnet hdiff hpos herr1 herr2
  · exact ⟨h1, h2, h3, hsum⟩
  · exact ⟨h1, h2, h3, hsum⟩
  · -- withdrawal branch with savings correction
    refine ⟨?_, ?_, ?_, ?_⟩
    · exact le_trans (ha2w Category.housing h1)
        (le_of_eq (hsavne _ _ Category.housing (by simp)).symm)
    · exact le_trans (ha2w Category.food h2)
        (le_of_eq (hsavne _ _ Category.food (by simp)).symm)
    · exact le_trans (ha2w Category.general h3)
        (le_of_eq (hsavne _ _ Category.general (by simp)).symm)
    · rw [hcorr]
      simp
      norm_num
  · -- withdrawal branch without correction
    refine ⟨ha2w Category.housing h1, ha2w Category.food h2, ha2w Category.general h3, ?_⟩
    rw [abs_sub_comm]
    exact le_of_not_lt herr1
  · -- deposit branch with savings correction
    refine ⟨?_, ?_, ?_, ?_⟩
    · exact le_trans (ha2d Category.housing h1)
        (le_of_eq (hsavne _ _ Category.housing (by simp)).symm)
    · exact le_trans (ha2d Category.food h2)
        (le_of_eq (hsavne _ _ Category.food (by simp)).symm)
    · exact le_trans (ha2d Category.general h3)
        (le_of_eq (hsavne _ _ Category.general (by simp)).symm)
    · rw [hcorr]
      simp
      norm_num
  · -- deposit branch without correction
    refine ⟨ha2d Category.housing h1, ha2d Category.food h2, ha2d Category.general h3, ?_⟩
    rw [abs_sub_comm]
    exact le_of_not_lt herr2

/-- C1 counterexample: a state with all four values non-negative whose sum is
within 0.001 of the budget (1.0009 against a budget of 1), on which a single
rebalance call drives savings negative: raising food to the full budget drains
savings and general, breaks the withdrawal loop at housing because the remaining
difference 0.0006 is below 0.001, and the final correction step then absorbs the
discrepancy -0.0015 into the already empty savings category. -/
theorem allocation_negative_savings :
    (0 : ℚ) ≤ 3 / 2000 ∧ (0 : ℚ) ≤ 0 ∧ (0 : ℚ) ≤ 1997 / 5000 ∧ (0 : ℚ) ≤ 3 / 5 ∧
    |sumA ⟨3 / 2000, 0, 1997 / 5000, 3 / 5⟩ - 1| ≤ 0.001 ∧
    (updateAllocation 1 ⟨3 / 2000, 0, 1997 / 5000, 3 / 5⟩ Category.food 2).savings < 0 := by
  have habs : |sumA ⟨3 / 2000, 0, 1997 / 5000, 3 / 5⟩ - 1| ≤ 0.001 := by
    rw [show sumA ⟨3 / 2000, 0, 1997 / 5000, 3 / 5⟩ - 1 = 9 / 10000 from by norm_num [sumA],
      abs_of_nonneg (by norm_num)]
    norm_num
  refine ⟨by norm_num, le_refl 0, by norm_num, by norm_num, habs, ?_⟩
  norm_num [updateAllocation, withdrawalOrder, withdrawLoop, depositTo, aget, aset, sumA,
    min_def, max_def, abs_of_nonneg, abs_of_nonpos,
    (by decide : ¬(Category.savings = Category.food)),
    (by decide : ¬(Category.general = Category.food)),
    (by decide : ¬(Category.housing = Category.food))]

/-- C1 amended: starting from a state whose four category values are non-negative
and sum to the budget within 0.001, after any sequence of rebalance calls the
housing, food and general values are still non-negative and the sum is still
within 0.001 of the budget; the savings value, however, can be driven below zero
by the final correction step, so non-negativity holds for all categories except
savings. -/
theorem allocation_conservation (net : ℚ) (a : Allocations) (edits : List (Category × ℚ))
    (h1 : 0 ≤ a.housing) (h2 : 0 ≤ a.food) (h3 : 0 ≤ a.general) (_h4 : 0 ≤ a.savings)
    (hsum : |sumA a - net| ≤ 0.001) :
    0 ≤ (applyEdits net a edits).housing ∧ 0 ≤ (applyEdits net a edits).food ∧
    0 ≤ (applyEdits net a edits).general ∧
    |sumA (applyEdits net a edits) - net| ≤ 0.001 := by
  clear _h4
  induction edits generalizing a with
  | nil => exact ⟨h1, h2, h3, hsum⟩
  | cons e rest ih =>
    obtain ⟨c, v⟩ := e
    have hstep := updateAllocation_preserves net a c v h1 h2 h3 hsum
    exact ih (updateAllocation net a c v) hstep.1 hstep.2.1 hstep.2.2.1 hstep.2.2.2

/-- C1 witness: the amended conservation statement on the 35/15/20/30 state for a
budget of 1000, under the single edit raising food to 500. -/
theorem allocation_conservation_witness :
    ((0 : ℚ) ≤ 350 ∧ (0 : ℚ) ≤ 150 ∧ (0 : ℚ) ≤ 200 ∧ (0 : ℚ) ≤ 300 ∧
      |sumA ⟨350, 150, 200, 300⟩ - 1000| ≤ 0.001) ∧
    0 ≤ (applyEdits 1000 ⟨350, 150, 200, 300⟩ [(Category.food, 500)]).housing ∧
    0 ≤ (applyEdits 1000 ⟨350, 150, 200, 300⟩ [(Category.food, 500)]).food ∧
    0 ≤ (applyEdits 1000 ⟨350, 150, 200, 300⟩ [(Category.food, 500)]).general ∧
    |sumA (applyEdits 1000 ⟨350, 150, 200, 300⟩ [(Category.food, 500)]) - 1000| ≤ 0.001 :=
  ⟨⟨by norm_num, by norm_num, by norm_num, by norm_num,
      by rw [show sumA ⟨350, 150, 200, 300⟩ - 1000 = 0 from by norm_num [sumA]]; norm_num⟩,
    allocation_conservation 1000 ⟨350, 150, 200, 300⟩ [(Category.food, 500)]
      (by norm_num) (by norm_num) (by norm_num) (by norm_num)
      (by rw [show sumA ⟨350, 150, 200, 300⟩ - 1000 = 0 from by norm_num [sumA]]; norm_num)⟩

/-! ### Claim C3: withdrawal priority order -/

theorem withdrawLoop_eq_spec (category : Category) :
    ∀ (order : List Category) (a : Allocations) (rd : ℚ),
      (∀ d, 0 ≤ aget a d) → 0 ≤ rd →
      withdrawLoop category a rd order = withdrawSpec category a rd order := by
  intro order
  induction order with
  | nil => intro a rd _ _; rfl
  | cons src rest ih =>
    intro a rd hnn hrd
    simp only [withdrawLoop, withdrawSpec]
    split_ifs with h1 h2 h3
    · exact ih a rd hnn hrd
    · rfl
    · have hz : aget a src = 0 := le_antisymm h3 (hnn src)
      have hmin : min (aget a src) rd = aget a src := min_eq_left (hz ▸ hrd)
      rw [hmin, sub_self, hz, sub_zero, ← hz, aset_aget_self]
      exact ih a rd hnn hrd
    · apply ih
      · intro d
        by_cases hds : d = src
        · subst hds
          rw [aget_aset_self]
          have := min_le_left (aget a d) rd
          linarith
        · rw [aget_aset_ne a src d _ hds]
          exact hnn d
      · have := min_le_right (aget a src) rd
        linarith

theorem withdrawLoop_untouched (category : Category) :
    ∀ (order : List Category) (a : Allocations) (rd : ℚ) (d : Category),
      d ∉ order → aget (withdrawLoop category a rd order).1 d = aget a d := by
  intro order
  induction order with
  | nil => intro a rd d _; rfl
  | cons src rest ih =>
    intro a rd d hd
    have hdsrc : d ≠ src := fun h => hd (h ▸ List.mem_cons_self src rest)
    have hdrest : d ∉ rest := fun h => hd (List.mem_cons_of_mem src h)
    simp only [withdrawLoop]
    split_ifs with h1 h2 h3
    · exact ih a rd d hdrest
    · rfl
    · exact ih a rd d hdrest
    · rw [ih _ _ d hdrest, aget_aset_ne a src d _ hdsrc]

theorem withdrawLoop_small (category : Category) :
    ∀ (order : List Category) (a : Allocations) (rd : ℚ),
      |rd| < 0.001 → (withdrawLoop category a rd order).1 = a := by
  intro order
  induction order with
  | nil => intro a rd _; rfl
  | cons src rest ih =>
    intro a rd hrd
    simp only [withdrawLoop]
    split_ifs <;>
      first
      | rfl
      | exact ih a rd hrd

theorem withdrawLoop_drain (category : Category) :
    ∀ (l : List Category) (a : Allocations) (rd : ℚ),
      Category.housing ∉ l → l.Nodup → (∀ e, 0 ≤ aget a e) → 0 ≤ rd →
      (withdrawLoop category a rd (l ++ [Category.housing])).1.housing < a.housing →
      ∀ e ∈ l, e ≠ category →
        aget (withdrawLoop category a rd (l ++ [Category.housing])).1 e = 0 := by
  intro l
  induction l with
  | nil => intro a rd _ _ _ _ _ e he; exact absurd he (List.not_mem_nil e)
  | cons src rest ih =>
    intro a rd hh hnd hnn hrd hdec e he hec
    have hsrch : src ≠ Category.housing := fun h => hh (h ▸ List.mem_cons_self src rest)
    have hhrest : Category.housing ∉ rest := fun h => hh (List.mem_cons_of_mem src h)
    obtain ⟨hsrcrest, hndrest⟩ := List.nodup_cons.mp hnd
    have hsrcfull : src ∉ rest ++ [Category.housing] := by
      intro hmem
      rcases List.mem_append.mp hmem with h | h
      · exact hsrcrest h
      · exact hsrch (List.mem_singleton.mp h)
    rw [List.cons_append] at hdec ⊢
    simp only [withdrawLoop] at hdec ⊢
    split_ifs at hdec ⊢ with h1 h2 h3
    · -- src is the edited category: it is skipped
      rcases List.mem_cons.mp he with hesrc | herest
      · exact absurd (hesrc.trans h1) hec
      · exact ih a rd hhrest hndrest hnn hrd hdec e herest hec
    · -- the loop breaks: nothing changed, housing cannot have decreased
      exact absurd hdec (lt_irrefl _)
    · -- src holds nothing: skipped, and its value is already 0
      rcases List.mem_cons.mp he with hesrc | herest
      · subst hesrc
        rw [withdrawLoop_untouched category _ a rd e hsrcfull]
        exact le_antisymm h3 (hnn e)
      · exact ih a rd hhrest hndrest hnn hrd hdec e herest hec
    · -- src donates min(available, remaining)
      rcases le_total (aget a src) rd with hle | hle
      · -- src is fully drained
        have hmin : min (aget a src) rd = aget a src := min_eq_left hle
        have hnn2 : ∀ d, 0 ≤ aget (aset a src (aget a src - min (aget a src) rd)) d := by
          intro d
          by_cases hds : d = src
          · subst hds
            rw [aget_aset_self]
            have := min_le_left (aget a d) rd
            linarith
          · rw [aget_aset_ne a src d _ hds]
            exact hnn d
        have hrd2 : 0 ≤ rd - min (aget a src) rd := by
          have := min_le_right (aget a src) rd
          linarith
        have hdec2 : (withdrawLoop category (aset a src (aget a src - min (aget a src) rd))
            (rd - min (aget a src) rd) (rest ++ [Category.housing])).1.housing <
            (aset a src (aget a src - min (aget a src) rd)).housing := by
          have hfix : (aset a src (aget a src - min (aget a src) rd)).housing = a.housing := by
            have := aget_aset_ne a src Category.housing
              (aget a src - min (aget a src) rd) (Ne.symm hsrch)
            exact this
          rw [hfix]
          exact hdec
        rcases List.mem_cons.mp he with hesrc | herest
        · subst hesrc
          rw [withdrawLoop_untouched category _ _ _ e hsrcfull, aget_aset_self, hmin, sub_self]
        · exact ih _ _ hhrest hndrest hnn2 hrd2 hdec2 e herest hec
      · -- the remaining difference is covered in full: the loop then stops
        have hmin : min (aget a src) rd = rd := min_eq_right hle
        have hzero : rd - min (aget a src) rd = 0 := by rw [hmin, sub_self]
        rw [hzero] at hdec
        rw [withdrawLoop_small category _ _ 0 (by norm_num)] at hdec
        have hfix : (aset a src (aget a src - min (aget a src) rd)).housing = a.housing :=
          aget_aset_ne a src Category.housing _ (Ne.symm hsrch)
        rw [hfix] at hdec
        exact absurd hdec (lt_irrefl _)

/-- C3: for a rebalance call that increases the edited category (delta at least
the 0.001 epsilon), updateAllocation is the withdrawal loop over the fixed donor
order savings, general, food, housing followed by the correction step; on
non-negative states the loop coincides with the claimed process that takes
exactly min(donorBalance, remainingDelta) from each donor in that order, skips
the edited category, and stops once the remaining delta is within 0.001 of zero
or the donors are exhausted; and housing is decreased only if savings, general
and food (other than the edited category) have been drained to zero first. -/
theorem withdrawal_priority :
    (∀ (net : ℚ) (a : Allocations) (category : Category) (newVal : ℚ),
      ¬net ≤ 0 →
      0.001 ≤ max 0 (min newVal net) - aget a category →
      updateAllocation net a category newVal =
        (let w := (withdrawLoop category (aset a category (max 0 (min newVal net)))
            (max 0 (min newVal net) - aget a category) withdrawalOrder).1
         if 0.001 < |net - sumA w| then
           aset w Category.savings (aget w Category.savings + (net - sumA w))
         else w)) ∧
    (∀ (a : Allocations) (category : Category) (rd : ℚ),
      0 ≤ a.housing → 0 ≤ a.food → 0 ≤ a.general → 0 ≤ a.savings → 0 ≤ rd →
      withdrawLoop category a rd withdrawalOrder =
        withdrawSpec category a rd withdrawalOrder) ∧
    (∀ (a : Allocations) (category : Category) (rd : ℚ),
      0 ≤ a.housing → 0 ≤ a.food → 0 ≤ a.general → 0 ≤ a.savings → 0 ≤ rd →
      (withdrawLoop category a rd withdrawalOrder).1.housing < a.housing →
      (category ≠ Category.savings →
        (withdrawLoop category a rd withdrawalOrder).1.savings = 0) ∧
      (category ≠ Category.general →
        (withdrawLoop category a rd withdrawalOrder).1.general = 0) ∧
      (category ≠ Category.food →
        (withdrawLoop category a rd withdrawalOrder).1.food = 0)) := by
  refine ⟨?_, ?_, ?_⟩
  · intro net a category newVal hnet hd
    have hd0 : 0 < max 0 (min newVal net) - aget a category :=
      lt_of_lt_of_le (by norm_num) hd
    have habs : ¬(|max 0 (min newVal net) - aget a category| < 0.001) := by
      rw [abs_of_nonneg (le_of_lt hd0)]
      exact not_lt.mpr hd
    simp only [updateAllocation]
    rw [if_neg hnet, if_neg habs, if_pos hd0]
  · intro a category rd hh hf hg hs hrd
    apply withdrawLoop_eq_spec category withdrawalOrder a rd _ hrd
    intro d
    cases d <;> assumption
  · intro a category rd hh hf hg hs hrd hdec
    have hnn : ∀ e, 0 ≤ aget a e := fun e => by cases e <;> assumption
    have horder : withdrawalOrder =
        [Category.savings, Category.general, Category.food] ++ [Category.housing] := rfl
    rw [horder] at hdec ⊢
    have hG := withdrawLoop_drain category [Category.savings, Category.general, Category.food]
      a rd (by decide) (by decide) hnn hrd hdec
    exact ⟨fun hc => hG Category.savings (by decide) (Ne.symm hc),
      fun hc => hG Category.general (by decide) (Ne.symm hc),
      fun hc => hG Category.food (by decide) (Ne.symm hc)⟩

/-- C3 witness: the rebalance-call decomposition at budget 1000 raising food to
500, and the loop/spec agreement and drain property on the non-negative state
(100, 50, 30, 20) when food requests 60: savings and general end at 0 and only
then is housing reduced (to 90). -/
theorem withdrawal_priority_witness :
    (¬(1000 : ℚ) ≤ 0 ∧
      (0.001 : ℚ) ≤ max 0 (min 500 1000) - aget ⟨350, 150, 200, 300⟩ Category.food ∧
      updateAllocation 1000 ⟨350, 150, 200, 300⟩ Category.food 500 =
        (let w := (withdrawLoop Category.food
            (aset ⟨350, 150, 200, 300⟩ Category.food (max 0 (min 500 1000)))
            (max 0 (min 500 1000) - aget ⟨350, 150, 200, 300⟩ Category.food)
            withdrawalOrder).1
         if 0.001 < |1000 - sumA w| then
           aset w Category.savings (aget w Category.savings + (1000 - sumA w))
         else w)) ∧
    (withdrawLoop Category.food ⟨100, 50, 30, 20⟩ 60 withdrawalOrder =
      withdrawSpec Category.food ⟨100, 50, 30, 20⟩ 60 withdrawalOrder) ∧
    ((withdrawLoop Category.food ⟨100, 50, 30, 20⟩ 60 withdrawalOrder).1.housing < 100 ∧
      (withdrawLoop Category.food ⟨100, 50, 30, 20⟩ 60 withdrawalOrder).1.savings = 0 ∧
      (withdrawLoop Category.food ⟨100, 50, 30, 20⟩ 60 withdrawalOrder).1.general = 0) := by
  have h1 : ¬(1000 : ℚ) ≤ 0 := by norm_num
  have h2 : (0.001 : ℚ) ≤ max 0 (min 500 1000) - aget ⟨350, 150, 200, 300⟩ Category.food := by
    norm_num [aget, min_def, max_def]
  have hdec : (withdrawLoop Category.food ⟨100, 50, 30, 20⟩ 60 withdrawalOrder).1.housing <
      (⟨100, 50, 30, 20⟩ : Allocations).housing := by
    norm_num [withdrawLoop, withdrawalOrder, aget, aset, min_def, abs_of_nonneg,
      (by decide : ¬(Category.savings = Category.food)),
      (by decide : ¬(Category.general = Category.food)),
      (by decide : ¬(Category.housing = Category.food))]
  have hdr := withdrawal_priority.2.2 ⟨100, 50, 30, 20⟩ Category.food 60
    (by decide) (by decide) (by decide) (by decide) (by decide) hdec
  exact ⟨⟨h1, h2, withdrawal_priority.1 1000 ⟨350, 150, 200, 300⟩ Category.food 500 h1 h2⟩,
    withdrawal_priority.2.1 ⟨100, 50, 30, 20⟩ Category.food 60
      (by decide) (by decide) (by decide) (by decide) (by decide),
    hdec, hdr.1 (by decide), hdr.2.1 (by decide)⟩
